import Mathlib

/-!
# Verification of the pgtracer event-driven state-reconstruction engine

Shallow embedding of `src/pgtracer/ebpf/collector.py` (event dispatch and the
portal session cache) and `src/pgtracer/model/query.py` (the `Query` entity,
its merge semantics, and the plan-tree builder `add_node_from_event`).

Modelling conventions:
* Python `dict`s are association lists (`PMap`), with insertion-order
  preservation and in-place replacement on key collision, like CPython dicts.
* Python `bytes` are `List Nat` (byte values); Python `str` is `PyStr`, a list
  of Unicode code points.  `bytes.decode("utf-8")` (strict errors, as called by
  the source) is `utf8decode`, which returns `none` exactly on the inputs where
  CPython raises `UnicodeDecodeError`.
* The `Instrumentation` structure is parsed out of the raw event buffer via
  DWARF metadata (`metadata.structs.Instrumentation(...)`); that parsing layer
  is external to the engine, so events here carry the already-parsed snapshot
  (`Instr`).  Likewise the stack unwinder (`UnwindAddressSpace`) is external:
  a `planstate_data` event carries the unwound frame list directly, each frame
  exposing its resolved function name and its call arguments.
* Exceptions are `Except PgErr`: `UnknownEventKind` models the `ValueError`
  raised by `EventType(event_type)` on an unrecognised discriminant, and
  `DecodeError` the `UnicodeDecodeError` raised by a strict decode.
-/

set_option linter.unusedVariables false
set_option linter.unusedSectionVars false

namespace PgTracer

/-- Errors the embedded engine can raise. -/
inductive PgErr where
  | UnknownEventKind : PgErr
  | DecodeError : PgErr
deriving DecidableEq, Repr

/-! ## Association-list maps (Python `dict`) -/

/-- A Python `dict`: an association list with unique keys, preserving
insertion order. -/
def PMap (κ α : Type) : Type := List (κ × α)

namespace PMap

variable {κ α : Type} [DecidableEq κ]

/-- The empty dict. -/
def empty {κ α : Type} : PMap κ α := []

/-- `d.get k`: `d[k]` if present, else `none` (`dict.get`). -/
def get : PMap κ α → κ → Option α
  | [], _ => none
  | (k', v) :: rest, k => if k' = k then some v else get rest k

/-- `d.set k v`: `d[k] = v` — replaces in place if `k` is present (keeping its
position, as CPython dicts do), else appends. -/
def set : PMap κ α → κ → α → PMap κ α
  | [], k, v => [(k, v)]
  | (k', v') :: rest, k, v =>
      if k' = k then (k, v) :: rest else (k', v') :: set rest k v

/-- `d.del k`: `del d[k]` (no-op when absent). -/
def del : PMap κ α → κ → PMap κ α
  | [], _ => []
  | (k', v') :: rest, k =>
      if k' = k then rest else (k', v') :: del rest k

/-- The values of the dict, in insertion order (`d.values()`). -/
def values (m : PMap κ α) : List α := m.map Prod.snd

@[simp] theorem get_empty (k : κ) : get (empty : PMap κ α) k = none := rfl

@[simp] theorem get_set_self (m : PMap κ α) (k : κ) (v : α) :
    get (set m k v) k = some v := by
  induction m with
  | nil => simp [get, set]
  | cons p rest ih =>
      obtain ⟨k', v'⟩ := p
      by_cases h : k' = k <;> simp [get, set, h, ih]

@[simp] theorem get_set_ne (m : PMap κ α) (k k' : κ) (v : α) (h : k ≠ k') :
    get (set m k v) k' = get m k' := by
  induction m with
  | nil => simp [get, set, h]
  | cons p rest ih =>
      obtain ⟨k₀, v₀⟩ := p
      by_cases h₀ : k₀ = k
      · subst h₀; simp [get, set, h]
      · simp only [set, if_neg h₀, get]
        by_cases h₁ : k₀ = k' <;> simp [h₁, ih]

/-- The keys of the dict, in insertion order (`d.keys()`). -/
def keys (m : PMap κ α) : List κ := m.map Prod.fst

/-- Representation invariant of Python dicts: keys are pairwise distinct. -/
def WF (m : PMap κ α) : Prop := (keys m).Nodup

instance (m : PMap κ α) : Decidable (WF m) := by
  unfold WF; infer_instance

theorem WF_empty : WF (empty : PMap κ α) := List.nodup_nil

theorem get_eq_none_of_not_mem_keys {m : PMap κ α} {k : κ}
    (h : k ∉ keys m) : get m k = none := by
  induction m with
  | nil => rfl
  | cons p rest ih =>
      obtain ⟨k₀, v₀⟩ := p
      have h1 : ¬ (k₀ = k) := by
        intro he
        exact h (by simp [keys, he])
      have h2 : k ∉ keys rest := fun hm =>
        h (by simp only [keys, List.map_cons, List.mem_cons]; exact Or.inr hm)
      simp only [get, if_neg h1]
      exact ih h2

theorem get_del_self {m : PMap κ α} (hwf : WF m) (k : κ) :
    get (del m k) k = none := by
  induction m with
  | nil => rfl
  | cons p rest ih =>
      obtain ⟨k₀, v₀⟩ := p
      simp only [WF, keys, List.map_cons, List.nodup_cons] at hwf
      by_cases h₀ : k₀ = k
      · subst h₀
        simp only [del, if_pos rfl]
        exact get_eq_none_of_not_mem_keys hwf.1
      · simp only [del, if_neg h₀, get, if_neg h₀]
        exact ih hwf.2

theorem get_del_ne (m : PMap κ α) (k k' : κ) (h : k ≠ k') :
    get (del m k) k' = get m k' := by
  induction m with
  | nil => rfl
  | cons p rest ih =>
      obtain ⟨k₀, v₀⟩ := p
      simp only [del, get]
      by_cases h₀ : k₀ = k
      · rw [if_pos h₀, if_neg (by rw [h₀]; exact h)]
      · rw [if_neg h₀]
        simp only [get]
        by_cases h₁ : k₀ = k' <;> simp [h₁, ih]

theorem keys_set_subset (m : PMap κ α) (k : κ) (v : α) :
    ∀ x ∈ keys (set m k v), x ∈ keys m ∨ x = k := by
  induction m with
  | nil => intro x hx; simp [set, keys] at hx; right; exact hx
  | cons p rest ih =>
      obtain ⟨k₀, v₀⟩ := p
      intro x hx
      by_cases h₀ : k₀ = k
      · simp only [set] at hx
        rw [if_pos h₀] at hx
        simp only [keys, List.map_cons, List.mem_cons] at hx ⊢
        rcases hx with h | h
        · right; exact h
        · left; right; exact h
      · simp only [set] at hx
        rw [if_neg h₀] at hx
        simp only [keys, List.map_cons, List.mem_cons] at hx ⊢
        rcases hx with h | h
        · left; left; exact h
        · rcases ih x h with h' | h'
          · left; right; exact h'
          · right; exact h'

theorem WF_set {m : PMap κ α} (hwf : WF m) (k : κ) (v : α) :
    WF (set m k v) := by
  induction m with
  | nil => simp [WF, set, keys]
  | cons p rest ih =>
      obtain ⟨k₀, v₀⟩ := p
      simp only [WF, keys, List.map_cons, List.nodup_cons] at hwf
      by_cases h₀ : k₀ = k
      · subst h₀
        have hset : set ((k₀, v₀) :: rest) k₀ v = (k₀, v) :: rest := by
          simp [set]
        rw [hset]
        simp only [WF, keys, List.map_cons, List.nodup_cons]
        exact hwf
      · simp only [WF, set]
        rw [if_neg h₀]
        simp only [keys, List.map_cons, List.nodup_cons]
        constructor
        · intro hmem
          rcases keys_set_subset rest k v k₀ hmem with h | h
          · exact hwf.1 h
          · exact h₀ h
        · exact ih hwf.2

theorem keys_del_subset (m : PMap κ α) (k : κ) :
    ∀ x ∈ keys (del m k), x ∈ keys m := by
  induction m with
  | nil => intro x hx; exact hx
  | cons p rest ih =>
      obtain ⟨k₀, v₀⟩ := p
      intro x hx
      by_cases h₀ : k₀ = k
      · subst h₀
        simp only [del, if_pos rfl] at hx
        simp only [keys, List.map_cons, List.mem_cons]
        right; exact hx
      · simp only [del, if_neg h₀, keys, List.map_cons, List.mem_cons] at hx ⊢
        rcases hx with h | h
        · left; exact h
        · right; exact ih x h

theorem WF_del {m : PMap κ α} (hwf : WF m) (k : κ) : WF (del m k) := by
  induction m with
  | nil => exact hwf
  | cons p rest ih =>
      obtain ⟨k₀, v₀⟩ := p
      simp only [WF, keys, List.map_cons, List.nodup_cons] at hwf
      by_cases h₀ : k₀ = k
      · subst h₀; simp only [del, if_pos rfl]; exact hwf.2
      · simp only [del, if_neg h₀, WF, keys, List.map_cons, List.nodup_cons]
        exact ⟨fun hmem => hwf.1 (keys_del_subset rest k k₀ hmem), ih hwf.2⟩

end PMap

instance pmapDecEq {κ α : Type} [DecidableEq κ] [DecidableEq α] :
    DecidableEq (PMap κ α) :=
  inferInstanceAs (DecidableEq (List (κ × α)))

/-! ## Python strings and strict UTF-8 decoding

A Python `str` is a sequence of Unicode code points; `bytes.decode("utf-8")`
with the default `errors="strict"` (as called throughout the source) either
returns the decoded string or raises `UnicodeDecodeError`.  `utf8decode`
implements exactly the byte sequences CPython accepts: no overlong forms, no
surrogates (U+D800..U+DFFF), nothing above U+10FFFF, no truncated sequences. -/

/-- A Python `str`, as its list of Unicode code points. -/
def PyStr : Type := List Nat

instance : DecidableEq PyStr := inferInstanceAs (DecidableEq (List Nat))

/-- Is `c` a UTF-8 continuation byte (`0x80..0xBF`)? -/
def utf8cont (c : Nat) : Bool := 0x80 ≤ c && c ≤ 0xBF

/-- Valid second byte of a three-byte sequence led by `b`
(excludes overlong forms and surrogates, as CPython does). -/
def utf8second3 (b c : Nat) : Bool :=
  if b = 0xE0 then 0xA0 ≤ c && c ≤ 0xBF
  else if b = 0xED then 0x80 ≤ c && c ≤ 0x9F
  else utf8cont c

/-- Valid second byte of a four-byte sequence led by `b`
(excludes overlong forms and code points above U+10FFFF, as CPython does). -/
def utf8second4 (b c : Nat) : Bool :=
  if b = 0xF0 then 0x90 ≤ c && c ≤ 0xBF
  else if b = 0xF4 then 0x80 ≤ c && c ≤ 0x8F
  else utf8cont c

/-- Strict UTF-8 decoding of a byte list into code points: `some` on the
inputs CPython's `bytes.decode("utf-8")` accepts, `none` where it raises
`UnicodeDecodeError`. -/
def utf8decode : List Nat → Option PyStr
  | [] => some []
  | b :: rest =>
      if b < 0x80 then
        (utf8decode rest).map (fun s => b :: s)
      else if 0xC2 ≤ b ∧ b ≤ 0xDF then
        match rest with
        | c :: rest2 =>
            if utf8cont c then
              (utf8decode rest2).map (fun s => ((b - 0xC0) * 0x40 + (c - 0x80)) :: s)
            else none
        | [] => none
      else if 0xE0 ≤ b ∧ b ≤ 0xEF then
        match rest with
        | c :: d :: rest2 =>
            if utf8second3 b c && utf8cont d then
              (utf8decode rest2).map
                (fun s => ((b - 0xE0) * 0x1000 + (c - 0x80) * 0x40 + (d - 0x80)) :: s)
            else none
        | _ => none
      else if 0xF0 ≤ b ∧ b ≤ 0xF4 then
        match rest with
        | c :: d :: e :: rest2 =>
            if utf8second4 b c && utf8cont d && utf8cont e then
              (utf8decode rest2).map
                (fun s => ((b - 0xF0) * 0x40000 + (c - 0x80) * 0x1000 +
                           (d - 0x80) * 0x40 + (e - 0x80)) :: s)
            else none
        | _ => none
      else none

/-! ## Events (`collector.py` structs, with external layers pre-applied)

`portal_data` mirrors the eBPF-filled ctypes struct: an event-kind
discriminant (`c_short`), the `portal_key`, the fixed-size query-text and
search-path byte buffers, and the raw `Instrumentation` buffer.  The
`Instrumentation` parse (`metadata.structs.Instrumentation(...)`, a
DWARF-layout-driven reinterpretation done in the external dwarf layer) is
modelled by the event carrying the parsed snapshot `Instr` directly. -/

/-- An `Instrumentation` snapshot as parsed via DWARF metadata: the `running`
flag plus the elapsed-time counter the engine reads. -/
structure Instr where
  running : Bool
  counter : Nat
deriving DecidableEq, Repr

/-- Mirrors the ctypes struct `portal_key` (`pid`, `creation_time`). -/
structure portal_key where
  pid : Nat
  creation_time : Nat
deriving DecidableEq, Repr

/-- `portal_key.as_tuple`: the struct as a tuple, used as the cache key. -/
def portal_key.as_tuple (k : portal_key) : Nat × Nat := (k.pid, k.creation_time)

/-- Mirrors the ctypes struct `portal_data` (query/search_path are the byte
buffers up to their first NUL; instrument is the parsed snapshot). -/
structure portal_data where
  event_type : Int
  portal_key : portal_key
  query : List Nat
  instrument : Instr
  search_path : List Nat
deriving DecidableEq, Repr

/-- Modelled from the spec: one symbolic frame produced by the external
StackUnwinder (`UnwindAddressSpace.frames()`, not under `src/`): a resolved
function name and an accessor for the call arguments. -/
structure Frame where
  function_name : String
  args : List Nat
deriving DecidableEq, Repr

/-- Modelled from the spec: `frame.fetch_arg(n, ct.c_ulonglong).value` — the
external unwinder's accessor returning the `n`-th call argument. -/
def Frame.fetch_arg (f : Frame) (n : Nat) : Nat := f.args.getD n 0

/-- Plan-node report event (`planstate_data`): the reporting node's own
address and its raw stack capture, the latter modelled as the frame list the
external unwinder produces from it; `instrument` is the node-local
instrumentation carried by the event. -/
structure planstate_data where
  planstate_addr : Nat
  stack_capture : List Frame
  instrument : Instr
deriving DecidableEq, Repr

/-! ## PlanState (`model/plan.py`, not under `src/`) -/

/-- Modelled from the spec: `PlanState` (defined in `model/plan.py`, which is
not under `src/`) — identified by its address, holding a `parent` relation and
a `children` relation (both by address into the owning Query's `nodes` map,
per the arena-plus-index design note), a `stub` flag (`true` on creation: a
placeholder until a stack walk starting from it completes), and node-local
instrumentation. -/
structure PlanState where
  addr : Nat
  parent_node : Option Nat
  children : List Nat
  is_stub : Bool
  instrument : Option Instr
deriving DecidableEq, Repr

/-- Modelled from the spec: `PlanState(addr)` — a fresh stub node. -/
def PlanState.new (addr : Nat) : PlanState :=
  { addr := addr, parent_node := none, children := [], is_stub := true,
    instrument := none }

/-- Modelled from the spec: `planstate.update(metadata, event)` applies the
event's own (node-local) instrumentation fields to the node; it does not
touch the stub flag or the tree links. -/
def PlanState.update (p : PlanState) (e : planstate_data) : PlanState :=
  { p with instrument := some e.instrument }

/-- Modelled from the spec: `parent_node.children.add(cur_node)` — Python
set insertion (no duplicates), with `children` holding addresses per the
arena-plus-index representation. -/
def PlanState.add_child (p : PlanState) (a : Nat) : PlanState :=
  { p with children := if a ∈ p.children then p.children else p.children ++ [a] }

/-! ## Query (`model/query.py`) -/

/-- `FUNCTION_ARGS_MAPPING`: for each known plan-executor function, the
argument position at that call site carrying the parent node's address. -/
def FUNCTION_ARGS_MAPPING : PMap String Nat :=
  [("ExecProcNodeFirst", 1),
   ("ExecProcNodeInstr", 1),
   ("ExecProcNode", 1),
   ("ExecAgg", 1),
   ("ExecAppend", 1),
   ("ExecBitmapAnd", 1),
   ("ExecBitmapHeapScan", 1),
   ("ExecBitmapIndexScan", 1),
   ("ExecBitmapOr", 1),
   ("ExecCteScan", 1),
   ("ExecCustomScan", 1),
   ("ExecForeignScan", 1),
   ("ExecFunctionScan", 1),
   ("ExecGather", 1),
   ("ExecGatherMerge", 1),
   ("ExecGroup", 1),
   ("ExecHash", 1),
   ("ExecHashJoin", 1),
   ("ExecIncrementalSort", 1),
   ("ExecIndexOnlyScan", 1),
   ("ExecIndexScan", 1),
   ("ExecLimit", 1),
   ("ExecLockRows", 1),
   ("ExecMaterial", 1),
   ("ExecMemoize", 1),
   ("ExecMergeAppend", 1),
   ("ExecMergeJoin", 1),
   ("ExecModifyTable", 1),
   ("ExecNamedTuplestoreScan", 1),
   ("ExecNestLoop", 1),
   ("ExecProjectSet", 1),
   ("ExecRecursiveUnion", 1),
   ("ExecResult", 1),
   ("ExecSampleScan", 1),
   ("ExecSeqScan", 1),
   ("ExecSetOp", 1),
   ("ExecSort", 1),
   ("ExecSubqueryScan", 1),
   ("ExecTableFuncScan", 1),
   ("ExecTidRangeScan", 1),
   ("ExecTidScan", 1),
   ("ExecUnique", 1),
   ("ExecValuesScan", 1),
   ("ExecWindowAgg", 1),
   ("ExecWorkTableScan", 1),
   ("MultiExecHash", 1),
   ("MultiExecBitmapIndexScan", 1),
   ("MultiExecBitmapAnd", 1),
   ("MultiExecBitmapOr", 1)]

/-- A PostgreSQL Query (`Query.__init__`): optional start timestamp, text,
instrumentation snapshot and search path, plus the owned `nodes` map from
node address to `PlanState`. -/
structure Query where
  startts : Option Nat
  text : Option PyStr
  instrument : Option Instr
  search_path : Option PyStr
  nodes : PMap Nat PlanState
deriving DecidableEq

/-- `Query.root_node`: scan `nodes` for parentless entries; exactly one is
valid and returned, otherwise the `ValueError` ("invalid plan tree") is
raised. -/
def Query.root_node (q : Query) : Except String PlanState :=
  let root_candidates :=
    (PMap.values q.nodes).filter (fun node => node.parent_node.isNone)
  match root_candidates with
  | [n] => Except.ok n
  | l =>
      Except.error
        ("Invalid plan, we have " ++ toString l.length ++ " roots when we expect 1")

/-- `Query.from_event`: build a query from a `portal_data` event.  The
instrumentation parse is the externally-supplied snapshot; `search_path` is
decoded only when the buffer is non-empty (Python truthiness of `bytes`),
while `text` is decoded unconditionally; strict-decode failures propagate. -/
def Query.from_event (event : portal_data) : Except PgErr Query :=
  let instrument := event.instrument
  let search_path : Except PgErr (Option PyStr) :=
    if event.search_path ≠ [] then
      match utf8decode event.search_path with
      | some sp => Except.ok (some sp)
      | none => Except.error PgErr.DecodeError
    else Except.ok none
  match search_path with
  | Except.error err => Except.error err
  | Except.ok search_path =>
      match utf8decode event.query with
      | none => Except.error PgErr.DecodeError
      | some text =>
          Except.ok
            { startts := some event.portal_key.creation_time,
              text := some text,
              instrument := some instrument,
              search_path := search_path,
              nodes := PMap.empty }

/-- `Query.update`: merge a `portal_data` event into the query.  The new
instrumentation snapshot is stored only if its `running` flag is set; the
other fields follow Python's `new or old` idiom (empty/zero keeps the prior
value); strict-decode failures propagate. -/
def Query.update (q : Query) (event : portal_data) : Except PgErr Query :=
  let instrument := event.instrument
  let q := if instrument.running then { q with instrument := some instrument } else q
  let q :=
    { q with
      startts :=
        if event.portal_key.creation_time ≠ 0 then some event.portal_key.creation_time
        else q.startts }
  match utf8decode event.query with
  | none => Except.error PgErr.DecodeError
  | some text =>
      let q := { q with text := if text ≠ [] then some text else q.text }
      match utf8decode event.search_path with
      | none => Except.error PgErr.DecodeError
      | some search_path =>
          Except.ok
            { q with
              search_path := if search_path ≠ [] then some search_path else q.search_path }

/-- The frame walk inside `Query.add_node_from_event` (the `for idx, frame`
loop, after frame 0 has been skipped): `nodes` is the owning query's map,
`cur` the current node (`cur_node`), and the list the remaining frames.  A
frame whose function name is in `FUNCTION_ARGS_MAPPING` yields a candidate
parent address; a self-reference is skipped; otherwise the candidate is
fetched or created as a stub, the parent/child links are recorded, and the
walk either stops (candidate already resolved) or continues from the
candidate. -/
def walkFrames (nodes : PMap Nat PlanState) (cur : PlanState) :
    List Frame → PMap Nat PlanState
  | [] => nodes
  | frame :: rest =>
      match PMap.get FUNCTION_ARGS_MAPPING frame.function_name with
      | none => walkFrames nodes cur rest
      | some argnum =>
          let parent_addr := frame.fetch_arg argnum
          if parent_addr = cur.addr then walkFrames nodes cur rest
          else
            let parent_node := (PMap.get nodes parent_addr).getD (PlanState.new parent_addr)
            let cur' := { cur with parent_node := some parent_addr }
            let parent' := parent_node.add_child cur.addr
            let nodes' := PMap.set (PMap.set nodes cur.addr cur') parent_addr parent'
            if parent_node.is_stub then walkFrames nodes' parent' rest else nodes'

/-- `Query.add_node_from_event`: add a node from a `planstate_data` event to
this query's plan tree, walking the unwound stack to locate it relative to
the other nodes.  The reporting node is fetched or created, updated with the
event, and — unless it was already resolved — the stack is walked (first
frame skipped as self-referential) before the node is marked resolved. -/
def Query.add_node_from_event (q : Query) (event : planstate_data) : Query :=
  let addr := event.planstate_addr
  let planstate :=
    match PMap.get q.nodes addr with
    | some p => p
    | none => PlanState.new addr
  let planstate := planstate.update event
  let nodes := PMap.set q.nodes addr planstate
  if ¬ planstate.is_stub then { q with nodes := nodes }
  else
    let nodes := walkFrames nodes planstate (event.stack_capture.drop 1)
    let final := (PMap.get nodes addr).getD planstate
    { q with nodes := PMap.set nodes addr { final with is_stub := false } }

/-! ## EventHandler (`collector.py`) -/

/-- The session-cache state of `EventHandler.__init__`: the open-query cache
keyed by `portal_key.as_tuple()`, the append-only history, and the single
pending-teardown key (`last_portal_key`). -/
structure EventHandler where
  query_cache : PMap (Nat × Nat) Query
  query_history : List Query
  last_portal_key : Option (Nat × Nat)
deriving DecidableEq

/-- The freshly-constructed handler: empty cache, empty history, no pending
teardown. -/
def EventHandler.init : EventHandler :=
  { query_cache := PMap.empty, query_history := [], last_portal_key := none }

/-- `handle_ExecutorStart`: record that a query started — construct it on a
previously-unseen key, merge into the existing query otherwise. -/
def EventHandler.handle_ExecutorStart (s : EventHandler) (event : portal_data) :
    Except PgErr EventHandler :=
  let key := event.portal_key.as_tuple
  match PMap.get s.query_cache key with
  | none =>
      match Query.from_event event with
      | Except.error err => Except.error err
      | Except.ok q =>
          Except.ok { s with query_cache := PMap.set s.query_cache key q }
  | some q =>
      match q.update event with
      | Except.error err => Except.error err
      | Except.ok q' =>
          Except.ok { s with query_cache := PMap.set s.query_cache key q' }

/-- `handle_ExecutorFinish`: merge the event into the cached query when the
key is known; silently dropped otherwise. -/
def EventHandler.handle_ExecutorFinish (s : EventHandler) (event : portal_data) :
    Except PgErr EventHandler :=
  let key := event.portal_key.as_tuple
  match PMap.get s.query_cache key with
  | none => Except.ok s
  | some q =>
      match q.update event with
      | Except.error err => Except.error err
      | Except.ok q' =>
          Except.ok { s with query_cache := PMap.set s.query_cache key q' }

/-- `handle_DropPortalEnter`: remember the key as the pending teardown
(unconditionally), and merge the event into the cached query when present. -/
def EventHandler.handle_DropPortalEnter (s : EventHandler) (event : portal_data) :
    Except PgErr EventHandler :=
  let key := event.portal_key.as_tuple
  let s := { s with last_portal_key := some key }
  match PMap.get s.query_cache key with
  | none => Except.ok s
  | some q =>
      match q.update event with
      | Except.error err => Except.error err
      | Except.ok q' =>
          Except.ok { s with query_cache := PMap.set s.query_cache key q' }

/-- `handle_DropPortalReturn`: if a teardown is pending and its key is cached,
move that query from the cache to the history; the pending key is cleared in
any case. -/
def EventHandler.handle_DropPortalReturn (s : EventHandler) (event : portal_data) :
    EventHandler :=
  match s.last_portal_key with
  | none => s
  | some key =>
      match PMap.get s.query_cache key with
      | some q =>
          { query_cache := PMap.del s.query_cache key,
            query_history := s.query_history ++ [q],
            last_portal_key := none }
      | none => { s with last_portal_key := none }

/-- `handle_event`: read the event-kind discriminant (the leading `c_short`)
and dispatch to the matching handler; `EventType(event_type)` raises on an
unrecognised discriminant, before any state is touched. -/
def EventHandler.handle_event (s : EventHandler) (event : portal_data) :
    Except PgErr EventHandler :=
  if event.event_type = 1 then s.handle_ExecutorStart event
  else if event.event_type = 2 then s.handle_ExecutorFinish event
  else if event.event_type = 3 then s.handle_DropPortalEnter event
  else if event.event_type = 4 then Except.ok (s.handle_DropPortalReturn event)
  else Except.error PgErr.UnknownEventKind

/-- Modelled from the spec: the polling pump drains the event source and
invokes `handle_event` once per event; a failure raised by one event is
contained at the ring-buffer callback boundary (outside `src/`) and does not
abort the loop — that event is discarded and processing continues. -/
def processEvents (s : EventHandler) : List portal_data → EventHandler
  | [] => s
  | event :: rest =>
      match s.handle_event event with
      | Except.ok s' => processEvents s' rest
      | Except.error _ => processEvents s rest

/-! ## Invariants of the node map -/

/-- No `PlanState` in the map is its own parent. -/
def NoSelfParent (m : PMap Nat PlanState) : Prop :=
  ∀ a n, PMap.get m a = some n → n.parent_node ≠ some a

/-- Every `PlanState` is stored under its own address (true of every map the
engine builds, since insertions always use the node's address as key). -/
def WFAddr (m : PMap Nat PlanState) : Prop :=
  ∀ a n, PMap.get m a = some n → n.addr = a

/-- `stubRel m m'`: passing from `m` to `m'` preserves every existing node's
stub flag and only ever creates new nodes as stubs. -/
def stubRel (m m' : PMap Nat PlanState) : Prop :=
  ∀ a,
    (∀ n, PMap.get m a = some n →
      ∃ n', PMap.get m' a = some n' ∧ n'.is_stub = n.is_stub) ∧
    (PMap.get m a = none →
      ∀ n', PMap.get m' a = some n' → n'.is_stub = true)

/-! # Theorems -/

theorem noSelfParent_set {m : PMap Nat PlanState} (h : NoSelfParent m)
    (k : Nat) (v : PlanState) (hv : v.parent_node ≠ some k) :
    NoSelfParent (PMap.set m k v) := by
  intro a n hget
  by_cases hak : k = a
  · subst hak
    rw [PMap.get_set_self] at hget
    obtain rfl : v = n := by injection hget
    exact hv
  · rw [PMap.get_set_ne _ _ _ _ hak] at hget
    exact h a n hget

theorem wfAddr_set {m : PMap Nat PlanState} (h : WFAddr m)
    (k : Nat) (v : PlanState) (hv : v.addr = k) :
    WFAddr (PMap.set m k v) := by
  intro a n hget
  by_cases hak : k = a
  · subst hak
    rw [PMap.get_set_self] at hget
    obtain rfl : v = n := by injection hget
    exact hv
  · rw [PMap.get_set_ne _ _ _ _ hak] at hget
    exact h a n hget

theorem stubRel_refl (m : PMap Nat PlanState) : stubRel m m := by
  intro a
  constructor
  · intro n hn; exact ⟨n, hn, rfl⟩
  · intro hnone n' hn'; rw [hnone] at hn'; exact absurd hn' (by simp)

theorem stubRel_trans {m₁ m₂ m₃ : PMap Nat PlanState}
    (h12 : stubRel m₁ m₂) (h23 : stubRel m₂ m₃) : stubRel m₁ m₃ := by
  intro a
  constructor
  · intro n hn
    obtain ⟨n₂, hn₂, hs₂⟩ := (h12 a).1 n hn
    obtain ⟨n₃, hn₃, hs₃⟩ := (h23 a).1 n₂ hn₂
    exact ⟨n₃, hn₃, by rw [hs₃, hs₂]⟩
  · intro hnone n₃ hn₃
    cases h₂ : PMap.get m₂ a with
    | none => exact (h23 a).2 h₂ n₃ hn₃
    | some n₂ =>
        have hs₂ := (h12 a).2 hnone n₂ h₂
        obtain ⟨n₃', hn₃', hs₃⟩ := (h23 a).1 n₂ h₂
        rw [hn₃] at hn₃'
        injection hn₃' with he
        rw [he, hs₃, hs₂]

theorem stubRel_set_pres {m : PMap Nat PlanState} {k : Nat} {c v : PlanState}
    (hc : PMap.get m k = some c) (hv : v.is_stub = c.is_stub) :
    stubRel m (PMap.set m k v) := by
  intro a
  by_cases hak : k = a
  · subst hak
    constructor
    · intro n hn
      rw [hc] at hn
      obtain rfl : c = n := by injection hn
      exact ⟨v, PMap.get_set_self _ _ _, hv⟩
    · intro hnone; rw [hc] at hnone; exact absurd hnone (by simp)
  · constructor
    · intro n hn
      exact ⟨n, by rw [PMap.get_set_ne _ _ _ _ hak]; exact hn, rfl⟩
    · intro hnone n' hn'
      rw [PMap.get_set_ne _ _ _ _ hak, hnone] at hn'
      exact absurd hn' (by simp)

theorem stubRel_set_new {m : PMap Nat PlanState} {k : Nat} {v : PlanState}
    (hc : PMap.get m k = none) (hv : v.is_stub = true) :
    stubRel m (PMap.set m k v) := by
  intro a
  by_cases hak : k = a
  · subst hak
    constructor
    · intro n hn; rw [hc] at hn; exact absurd hn (by simp)
    · intro _ n' hn'
      rw [PMap.get_set_self] at hn'
      obtain rfl : v = n' := by injection hn'
      exact hv
  · constructor
    · intro n hn
      exact ⟨n, by rw [PMap.get_set_ne _ _ _ _ hak]; exact hn, rfl⟩
    · intro hnone n' hn'
      rw [PMap.get_set_ne _ _ _ _ hak, hnone] at hn'
      exact absurd hn' (by simp)

/-- **C3**: for every Query and every merge applied to it, the incoming
instrumentation snapshot replaces the stored one exactly when its `running`
flag is true; in particular a stored `running = true` snapshot is never
clobbered by a later `running = false` one. -/
theorem claim_C3_running_precedence (q q' : Query) (event : portal_data)
    (h : q.update event = Except.ok q') :
    q'.instrument = if event.instrument.running then some event.instrument
                    else q.instrument := by
  unfold Query.update at h
  rcases hq : utf8decode event.query with _ | text
  · rw [hq] at h; exact absurd h (by simp)
  · rw [hq] at h
    rcases hs : utf8decode event.search_path with _ | sp
    · rw [hs] at h; exact absurd h (by simp)
    · rw [hs] at h
      simp only [Except.ok.injEq] at h
      subst h
      by_cases hr : event.instrument.running <;> simp [hr]

/-- Witness for C3 at a concrete merge: a stored running snapshot survives an
incoming non-running one. -/
theorem claim_C3_running_precedence_witness :
    Query.instrument
        { startts := some 5, text := some [0x41], instrument := some ⟨true, 7⟩,
          search_path := none, nodes := PMap.empty }
      = if (Instr.mk false 0).running then some (Instr.mk false 0)
        else some (Instr.mk true 7) :=
  claim_C3_running_precedence
    { startts := some 5, text := some [0x41], instrument := some ⟨true, 7⟩,
      search_path := none, nodes := PMap.empty }
    { startts := some 5, text := some [0x41], instrument := some ⟨true, 7⟩,
      search_path := none, nodes := PMap.empty }
    { event_type := 2, portal_key := ⟨3, 5⟩, query := [], instrument := ⟨false, 0⟩,
      search_path := [] } rfl

/-- **C7**: merging an event whose session-metadata fields are all empty/zero
(`creation_time = 0`, empty query and search-path buffers, a non-running
instrumentation snapshot) into an existing Query is the identity. -/
theorem claim_C7_zero_merge_identity (q : Query) (event : portal_data)
    (hts : event.portal_key.creation_time = 0)
    (hq : event.query = [])
    (hsp : event.search_path = [])
    (hr : event.instrument.running = false) :
    q.update event = Except.ok q := by
  simp [Query.update, hq, hsp, hts, hr]
  rw [show utf8decode [] = some [] from rfl]
  simp

/-- Witness for C7: the all-zero step event leaves a fully-populated concrete
Query untouched. -/
theorem claim_C7_zero_merge_identity_witness :
    Query.update
        { startts := some 11, text := some [0x53, 0x45], instrument := some ⟨true, 3⟩,
          search_path := some [0x70], nodes := [(5, PlanState.new 5)] }
        { event_type := 2, portal_key := ⟨8, 0⟩, query := [], instrument := ⟨false, 0⟩,
          search_path := [] }
      = Except.ok
          { startts := some 11, text := some [0x53, 0x45], instrument := some ⟨true, 3⟩,
            search_path := some [0x70], nodes := [(5, PlanState.new 5)] } :=
  claim_C7_zero_merge_identity _ _ rfl rfl rfl rfl

/-- **C9**: `add_node_from_event` mutates only the owning Query's `nodes`
map — `startts`, `text`, `instrument` and `search_path` are unchanged (and,
the embedding being a function of this one Query alone, no other Query is
read or written). -/
theorem claim_C9_frame (q : Query) (event : planstate_data) :
    (q.add_node_from_event event).startts = q.startts ∧
    (q.add_node_from_event event).text = q.text ∧
    (q.add_node_from_event event).instrument = q.instrument ∧
    (q.add_node_from_event event).search_path = q.search_path := by
  unfold Query.add_node_from_event
  dsimp only
  split <;> exact ⟨rfl, rfl, rfl, rfl⟩

/-- **C4**: `root_node` returns the unique parentless node when the candidate
scan finds exactly one, and fails with the invalid-plan-tree error when it
finds zero or two or more.  (The check lives only in this read-time accessor:
the ingestion functions `add_node_from_event` and the event handlers are
total and never evaluate it.) -/
theorem claim_C4_root_node (q : Query) :
    (∀ n, (PMap.values q.nodes).filter (fun node => node.parent_node.isNone) = [n] →
        q.root_node = Except.ok n) ∧
    (((PMap.values q.nodes).filter (fun node => node.parent_node.isNone)).length ≠ 1 →
        ∃ msg, q.root_node = Except.error msg) := by
  constructor
  · intro n h
    unfold Query.root_node
    rw [h]
  · intro h
    unfold Query.root_node
    rcases hc : (PMap.values q.nodes).filter (fun node => node.parent_node.isNone)
      with _ | ⟨a, _ | ⟨b, t⟩⟩
    · rw [hc]; exact ⟨_, rfl⟩
    · exact absurd (by rw [hc]; rfl) h
    · rw [hc]; exact ⟨_, rfl⟩

/-- Witness for C4, both branches: a one-root map returns its node, the empty
map fails. -/
theorem claim_C4_root_node_witness :
    Query.root_node
        { startts := none, text := none, instrument := none, search_path := none,
          nodes := [(5, PlanState.new 5)] } = Except.ok (PlanState.new 5) ∧
    ∃ msg, Query.root_node
        { startts := none, text := none, instrument := none, search_path := none,
          nodes := PMap.empty } = Except.error msg := by
  constructor
  · exact (claim_C4_root_node _).1 _ rfl
  · exact (claim_C4_root_node _).2 (by decide)

/-- **C5**: an unrecognised event-kind discriminant makes the dispatcher fail
with `UnknownEventKind` before any state is touched; the polling loop
discards just that event and processes the rest from the unchanged state. -/
theorem claim_C5_unknown_event_kind (s : EventHandler) (event : portal_data)
    (rest : List portal_data)
    (h1 : event.event_type ≠ 1) (h2 : event.event_type ≠ 2)
    (h3 : event.event_type ≠ 3) (h4 : event.event_type ≠ 4) :
    s.handle_event event = Except.error PgErr.UnknownEventKind ∧
    processEvents s (event :: rest) = processEvents s rest := by
  have hdisp : s.handle_event event = Except.error PgErr.UnknownEventKind := by
    unfold EventHandler.handle_event
    rw [if_neg h1, if_neg h2, if_neg h3, if_neg h4]
  refine ⟨hdisp, ?_⟩
  rw [processEvents, hdisp]

/-- **C6 counterexample**: constructing a Query from an event with an empty
query-text buffer does *not* leave `text` absent — `from_event` decodes the
empty buffer to the empty string and stores it, so the claim fails at this
input. -/
theorem claim_C6_counterexample :
    (Query.from_event
        { event_type := 1, portal_key := ⟨1, 2⟩, query := [],
          instrument := ⟨false, 0⟩, search_path := [] }).map Query.text
      = Except.ok (some []) ∧
    (Except.ok (some ([] : PyStr)) : Except PgErr (Option PyStr)) ≠ Except.ok none :=
  ⟨rfl, by simp⟩

/-- **C6 (amended)**: decoding is strict, not best-effort.  An event whose
query-text and search-path buffers are both empty constructs a Query whose
`text` is the *present* empty string (not absent) and whose `search_path` is
absent; a malformed query-text buffer makes both construction (`from_event`)
and merge (`update`) fail with the propagated decode error. -/
theorem claim_C6_amended_decode :
    (∀ event : portal_data, event.query = [] → event.search_path = [] →
        Query.from_event event = Except.ok
          { startts := some event.portal_key.creation_time, text := some [],
            instrument := some event.instrument, search_path := none,
            nodes := PMap.empty }) ∧
    (∀ event : portal_data, utf8decode event.query = none →
        Query.from_event event = Except.error PgErr.DecodeError) ∧
    (∀ (q : Query) (event : portal_data), utf8decode event.query = none →
        q.update event = Except.error PgErr.DecodeError) := by
  refine ⟨?_, ?_, ?_⟩
  · intro e h1 h2
    simp [Query.from_event, h1, h2]
    rw [show utf8decode [] = some [] from rfl]
  · intro e h
    by_cases hsp : e.search_path = []
    · simp [Query.from_event, hsp, h]
    · cases hspd : utf8decode e.search_path with
      | none => simp [Query.from_event, hsp, hspd]
      | some sp => simp [Query.from_event, hsp, hspd, h]
  · intro q e h
    simp [Query.update, h]

/-- Witness for the amended C6: a lone `0x80` byte (malformed UTF-8) fails
construction; the all-empty event constructs present-empty text and absent
search path. -/
theorem claim_C6_amended_decode_witness :
    Query.from_event
        { event_type := 1, portal_key := ⟨1, 2⟩, query := [0x80],
          instrument := ⟨false, 0⟩, search_path := [] }
      = Except.error PgErr.DecodeError ∧
    Query.from_event
        { event_type := 1, portal_key := ⟨1, 2⟩, query := [],
          instrument := ⟨true, 4⟩, search_path := [] }
      = Except.ok
          { startts := some 2, text := some [], instrument := some ⟨true, 4⟩,
            search_path := none, nodes := PMap.empty } :=
  ⟨claim_C6_amended_decode.2.1 _ rfl, claim_C6_amended_decode.1 _ rfl rfl⟩

/-- **C2**: a plan-node report for address `A` whose unwound stack is
`[reportingFrame, "ExecAgg" frame carrying parent address P]`, with `P ≠ A`
and both addresses previously unseen, creates entries for both `A` and `P`,
links `nodes[A].parent` to `P`, puts `A` among the children of `P`, and
leaves `nodes[P]` a stub (its own pass has not run). -/
theorem claim_C2_stack_walk_parent (q : Query) (event : planstate_data)
    (A P : Nat) (f0 f1 : Frame)
    (hA : event.planstate_addr = A)
    (hstack : event.stack_capture = [f0, f1])
    (hf : f1.function_name = "ExecAgg")
    (harg : f1.fetch_arg 1 = P)
    (hne : P ≠ A)
    (hqA : PMap.get q.nodes A = none)
    (hqP : PMap.get q.nodes P = none) :
    PMap.get (q.add_node_from_event event).nodes A =
      some { addr := A, parent_node := some P, children := [], is_stub := false,
             instrument := some event.instrument } ∧
    PMap.get (q.add_node_from_event event).nodes P =
      some { addr := P, parent_node := none, children := [A], is_stub := true,
             instrument := none } := by
  subst hA
  have hmap : PMap.get FUNCTION_ARGS_MAPPING f1.function_name = some 1 := by
    rw [hf]; rfl
  have hne' : event.planstate_addr ≠ P := fun he => hne he.symm
  simp only [Query.add_node_from_event, hstack, hqA, PlanState.update, PlanState.new,
    List.drop, walkFrames, hmap, harg, hne, PlanState.add_child,
    PMap.get_set_ne _ _ _ _ hne', PMap.get_set_ne _ _ _ _ hne, PMap.get_set_self,
    hqP, if_neg hne, List.not_mem_nil, ite_false, Option.getD]
  simp only [not_true, ite_true, ite_false, List.nil_append,
    PMap.get_set_self, PMap.get_set_ne _ _ _ _ hne', PMap.get_set_ne _ _ _ _ hne]
  exact ⟨trivial, trivial⟩

/-- Witness for C5: discriminant 7 is rejected and the loop carries on. -/
theorem claim_C5_unknown_event_kind_witness :
    EventHandler.handle_event EventHandler.init
        { event_type := 7, portal_key := ⟨1, 2⟩, query := [], instrument := ⟨false, 0⟩,
          search_path := [] } = Except.error PgErr.UnknownEventKind ∧
    processEvents EventHandler.init
        [{ event_type := 7, portal_key := ⟨1, 2⟩, query := [], instrument := ⟨false, 0⟩,
           search_path := [] }] = processEvents EventHandler.init [] :=
  claim_C5_unknown_event_kind EventHandler.init _ [] (by decide) (by decide)
    (by decide) (by decide)

/-- Witness for C2: a concrete two-frame capture links node 1 under a stub
node 2. -/
theorem claim_C2_stack_walk_parent_witness :
    PMap.get ((Query.mk none none none none PMap.empty).add_node_from_event
        ⟨1, [⟨"reportingFrame", []⟩, ⟨"ExecAgg", [0, 2]⟩], ⟨true, 3⟩⟩).nodes 1 =
      some { addr := 1, parent_node := some 2, children := [], is_stub := false,
             instrument := some ⟨true, 3⟩ } ∧
    PMap.get ((Query.mk none none none none PMap.empty).add_node_from_event
        ⟨1, [⟨"reportingFrame", []⟩, ⟨"ExecAgg", [0, 2]⟩], ⟨true, 3⟩⟩).nodes 2 =
      some { addr := 2, parent_node := none, children := [1], is_stub := true,
             instrument := none } :=
  claim_C2_stack_walk_parent _ _ 1 2 _ _ rfl rfl rfl rfl (by decide) rfl rfl

theorem walkFrames_noSelfParent (frames : List Frame) :
    ∀ (nodes : PMap Nat PlanState) (cur : PlanState),
      NoSelfParent nodes → NoSelfParent (walkFrames nodes cur frames) := by
  induction frames with
  | nil => intro nodes cur h; exact h
  | cons f rest ih =>
      intro nodes cur h
      unfold walkFrames
      cases hm : PMap.get FUNCTION_ARGS_MAPPING f.function_name with
      | none => exact ih _ _ h
      | some argnum =>
          dsimp only
          by_cases hpa : f.fetch_arg argnum = cur.addr
          · rw [if_pos hpa]; exact ih _ _ h
          · rw [if_neg hpa]
            have h1 : NoSelfParent
                (PMap.set nodes cur.addr
                  { cur with parent_node := some (f.fetch_arg argnum) }) :=
              noSelfParent_set h _ _ (fun hc => hpa (Option.some.inj hc))
            have h2 : NoSelfParent
                (PMap.set
                  (PMap.set nodes cur.addr
                    { cur with parent_node := some (f.fetch_arg argnum) })
                  (f.fetch_arg argnum)
                  (((PMap.get nodes (f.fetch_arg argnum)).getD
                      (PlanState.new (f.fetch_arg argnum))).add_child cur.addr)) := by
              apply noSelfParent_set h1
              cases hpn : PMap.get nodes (f.fetch_arg argnum) with
              | none => simp [hpn, PlanState.new, PlanState.add_child]
              | some pp =>
                  simp only [hpn, Option.getD, PlanState.add_child]
                  exact h _ pp hpn
            split
            · exact ih _ _ h2
            · exact h2

/-- **C8**: the stack walk never creates a self-parent link — if no node of
the query is its own parent before `add_node_from_event`, none is afterwards
(the frame whose mapped argument equals the current node's address is
skipped, the walk continuing with the same current node). -/
theorem claim_C8_no_self_parent (q : Query) (event : planstate_data)
    (h : NoSelfParent q.nodes) :
    NoSelfParent (q.add_node_from_event event).nodes := by
  unfold Query.add_node_from_event
  dsimp only
  cases hg : PMap.get q.nodes event.planstate_addr with
  | none =>
      rw [if_neg (by simp [PlanState.update, PlanState.new])]
      have h1 : NoSelfParent
          (PMap.set q.nodes event.planstate_addr
            ((PlanState.new event.planstate_addr).update event)) :=
        noSelfParent_set h _ _ (by simp [PlanState.update, PlanState.new])
      have h2 := walkFrames_noSelfParent (event.stack_capture.drop 1) _
        ((PlanState.new event.planstate_addr).update event) h1
      apply noSelfParent_set h2
      cases hg2 : PMap.get
          (walkFrames
            (PMap.set q.nodes event.planstate_addr
              ((PlanState.new event.planstate_addr).update event))
            ((PlanState.new event.planstate_addr).update event)
            (event.stack_capture.drop 1)) event.planstate_addr with
      | none => simp [hg2, PlanState.update, PlanState.new]
      | some p =>
          simp only [hg2, Option.getD]
          exact h2 _ p hg2
  | some p =>
      by_cases hstub : p.is_stub
      · rw [if_neg (by simp [PlanState.update, hstub])]
        have h1 : NoSelfParent
            (PMap.set q.nodes event.planstate_addr (p.update event)) :=
          noSelfParent_set h _ _ (h _ p hg)
        have h2 := walkFrames_noSelfParent (event.stack_capture.drop 1) _
          (p.update event) h1
        apply noSelfParent_set h2
        cases hg2 : PMap.get
            (walkFrames
              (PMap.set q.nodes event.planstate_addr (p.update event))
              (p.update event) (event.stack_capture.drop 1))
            event.planstate_addr with
        | none =>
            simp only [hg2, Option.getD]
            exact h _ p hg
        | some pp =>
            simp only [hg2, Option.getD]
            exact h2 _ pp hg2
      · rw [if_pos (by simp [PlanState.update, hstub])]
        exact noSelfParent_set h _ _ (h _ p hg)

/-- Witness for C8 on a concrete self-referential capture: node 1's frame
maps back to address 1, no self-link is created. -/
theorem claim_C8_no_self_parent_witness :
    NoSelfParent ((Query.mk none none none none PMap.empty).add_node_from_event
        ⟨1, [⟨"reportingFrame", []⟩, ⟨"ExecSort", [0, 1]⟩], ⟨true, 3⟩⟩).nodes :=
  claim_C8_no_self_parent _ _ (fun a n hget => absurd hget (by simp [PMap.get, PMap.empty]))

theorem walkFrames_stubRel (frames : List Frame) :
    ∀ (nodes : PMap Nat PlanState) (cur : PlanState),
      WFAddr nodes → PMap.get nodes cur.addr = some cur →
      stubRel nodes (walkFrames nodes cur frames) ∧
      WFAddr (walkFrames nodes cur frames) := by
  induction frames with
  | nil => intro nodes cur hwf hcur; exact ⟨stubRel_refl nodes, hwf⟩
  | cons f rest ih =>
      intro nodes cur hwf hcur
      unfold walkFrames
      cases hm : PMap.get FUNCTION_ARGS_MAPPING f.function_name with
      | none => exact ih _ _ hwf hcur
      | some argnum =>
          dsimp only
          by_cases hpa : f.fetch_arg argnum = cur.addr
          · rw [if_pos hpa]; exact ih _ _ hwf hcur
          · rw [if_neg hpa]
            have hpa' : cur.addr ≠ f.fetch_arg argnum := fun h => hpa h.symm
            have hrel1 : stubRel nodes
                (PMap.set nodes cur.addr
                  { cur with parent_node := some (f.fetch_arg argnum) }) :=
              stubRel_set_pres hcur rfl
            have hwf1 : WFAddr
                (PMap.set nodes cur.addr
                  { cur with parent_node := some (f.fetch_arg argnum) }) :=
              wfAddr_set hwf _ _ rfl
            cases hpn : PMap.get nodes (f.fetch_arg argnum) with
            | none =>
                simp only [Option.getD]
                have hget1 : PMap.get
                    (PMap.set nodes cur.addr
                      { cur with parent_node := some (f.fetch_arg argnum) })
                    (f.fetch_arg argnum) = none := by
                  rw [PMap.get_set_ne _ _ _ _ hpa']; exact hpn
                have hrel2 := stubRel_set_new hget1
                  (rfl :
                    ((PlanState.new (f.fetch_arg argnum)).add_child cur.addr).is_stub
                      = true)
                have hwf2 := wfAddr_set hwf1 (f.fetch_arg argnum)
                  ((PlanState.new (f.fetch_arg argnum)).add_child cur.addr) rfl
                have hs : (PlanState.new (f.fetch_arg argnum)).is_stub = true := rfl
                rw [if_pos hs]
                obtain ⟨hrel3, hwf3⟩ := ih _
                  ((PlanState.new (f.fetch_arg argnum)).add_child cur.addr) hwf2
                  (PMap.get_set_self _ _ _)
                exact ⟨stubRel_trans (stubRel_trans hrel1 hrel2) hrel3, hwf3⟩
            | some pp =>
                simp only [Option.getD]
                have haddr : pp.addr = f.fetch_arg argnum := hwf _ _ hpn
                have hget1 : PMap.get
                    (PMap.set nodes cur.addr
                      { cur with parent_node := some (f.fetch_arg argnum) })
                    (f.fetch_arg argnum) = some pp := by
                  rw [PMap.get_set_ne _ _ _ _ hpa']; exact hpn
                have hrel2 := stubRel_set_pres hget1
                  (rfl : (pp.add_child cur.addr).is_stub = pp.is_stub)
                have hwf2 := wfAddr_set hwf1 (f.fetch_arg argnum)
                  (pp.add_child cur.addr) haddr
                by_cases hstub : pp.is_stub = true
                · rw [if_pos hstub]
                  have hcur2 : PMap.get
                      (PMap.set
                        (PMap.set nodes cur.addr
                          { cur with parent_node := some (f.fetch_arg argnum) })
                        (f.fetch_arg argnum) (pp.add_child cur.addr))
                      (pp.add_child cur.addr).addr = some (pp.add_child cur.addr) := by
                    rw [show (pp.add_child cur.addr).addr = f.fetch_arg argnum from haddr]
                    exact PMap.get_set_self _ _ _
                  obtain ⟨hrel3, hwf3⟩ := ih _ (pp.add_child cur.addr) hwf2 hcur2
                  exact ⟨stubRel_trans (stubRel_trans hrel1 hrel2) hrel3, hwf3⟩
                · rw [if_neg hstub]
                  exact ⟨stubRel_trans hrel1 hrel2, hwf2⟩

/-- **C10**: after `add_node_from_event` only the reporting node itself is
resolved — it ends with `stub = false`, every pre-existing other node keeps
its stub flag, and every node the walk created afresh (the discovered
ancestors) is left with `stub = true`, so a later report for such an address
will still walk its stack instead of returning immediately. -/
theorem claim_C10_only_reporter_resolved (q : Query) (event : planstate_data)
    (hwf : WFAddr q.nodes) :
    (∃ n', PMap.get (q.add_node_from_event event).nodes event.planstate_addr = some n'
        ∧ n'.is_stub = false) ∧
    (∀ a, a ≠ event.planstate_addr →
      (∀ n, PMap.get q.nodes a = some n →
        ∃ n', PMap.get (q.add_node_from_event event).nodes a = some n'
          ∧ n'.is_stub = n.is_stub) ∧
      (PMap.get q.nodes a = none →
        ∀ n', PMap.get (q.add_node_from_event event).nodes a = some n' →
          n'.is_stub = true)) := by
  unfold Query.add_node_from_event
  dsimp only
  cases hg : PMap.get q.nodes event.planstate_addr with
  | none =>
      rw [if_neg (by simp [PlanState.update, PlanState.new])]
      have hrel1 : stubRel q.nodes
          (PMap.set q.nodes event.planstate_addr
            ((PlanState.new event.planstate_addr).update event)) :=
        stubRel_set_new hg rfl
      have hwf1 : WFAddr
          (PMap.set q.nodes event.planstate_addr
            ((PlanState.new event.planstate_addr).update event)) :=
        wfAddr_set hwf _ _ rfl
      obtain ⟨hrel2, hwf2⟩ := walkFrames_stubRel (event.stack_capture.drop 1) _
        ((PlanState.new event.planstate_addr).update event) hwf1
        (PMap.get_set_self _ _ _)
      have hrel : stubRel q.nodes
          (walkFrames
            (PMap.set q.nodes event.planstate_addr
              ((PlanState.new event.planstate_addr).update event))
            ((PlanState.new event.planstate_addr).update event)
            (event.stack_capture.drop 1)) := stubRel_trans hrel1 hrel2
      constructor
      · exact ⟨_, PMap.get_set_self _ _ _, rfl⟩
      · intro a ha
        have ha' : event.planstate_addr ≠ a := fun h => ha h.symm
        constructor
        · intro n hn
          obtain ⟨n', hn', hs⟩ := (hrel a).1 n hn
          exact ⟨n', by rw [PMap.get_set_ne _ _ _ _ ha']; exact hn', hs⟩
        · intro hnone n' hn'
          rw [PMap.get_set_ne _ _ _ _ ha'] at hn'
          exact (hrel a).2 hnone n' hn'
  | some p =>
      by_cases hstub : p.is_stub = true
      · rw [if_neg (by simp [PlanState.update, hstub])]
        have hrel1 : stubRel q.nodes
            (PMap.set q.nodes event.planstate_addr (p.update event)) :=
          stubRel_set_pres hg rfl
        have hwf1 : WFAddr
            (PMap.set q.nodes event.planstate_addr (p.update event)) :=
          wfAddr_set hwf _ _ (show (p.update event).addr = event.planstate_addr from
            hwf _ p hg)
        obtain ⟨hrel2, hwf2⟩ := walkFrames_stubRel (event.stack_capture.drop 1) _
          (p.update event) hwf1
          (by rw [show (p.update event).addr = event.planstate_addr from hwf _ p hg]
              exact PMap.get_set_self _ _ _)
        have hrel : stubRel q.nodes
            (walkFrames
              (PMap.set q.nodes event.planstate_addr (p.update event))
              (p.update event) (event.stack_capture.drop 1)) :=
          stubRel_trans hrel1 hrel2
        constructor
        · exact ⟨_, PMap.get_set_self _ _ _, rfl⟩
        · intro a ha
          have ha' : event.planstate_addr ≠ a := fun h => ha h.symm
          constructor
          · intro n hn
            obtain ⟨n', hn', hs⟩ := (hrel a).1 n hn
            exact ⟨n', by rw [PMap.get_set_ne _ _ _ _ ha']; exact hn', hs⟩
          · intro hnone n' hn'
            rw [PMap.get_set_ne _ _ _ _ ha'] at hn'
            exact (hrel a).2 hnone n' hn'
      · rw [if_pos (by simp [PlanState.update]; simpa using hstub)]
        constructor
        · refine ⟨p.update event, PMap.get_set_self _ _ _, ?_⟩
          simpa [PlanState.update] using hstub
        · intro a ha
          have ha' : event.planstate_addr ≠ a := fun h => ha h.symm
          constructor
          · intro n hn
            exact ⟨n, by rw [PMap.get_set_ne _ _ _ _ ha']; exact hn, rfl⟩
          · intro hnone n' hn'
            rw [PMap.get_set_ne _ _ _ _ ha', hnone] at hn'
            exact absurd hn' (by simp)

theorem handle_event_start (s : EventHandler) (e : portal_data)
    (ht : e.event_type = 1) :
    s.handle_event e = s.handle_ExecutorStart e := by
  simp [EventHandler.handle_event, ht]

theorem handle_event_dpe (s : EventHandler) (e : portal_data)
    (ht : e.event_type = 3) :
    s.handle_event e = s.handle_DropPortalEnter e := by
  simp [EventHandler.handle_event, ht]

theorem handle_event_dpr (s : EventHandler) (e : portal_data)
    (ht : e.event_type = 4) :
    s.handle_event e = Except.ok (s.handle_DropPortalReturn e) := by
  simp [EventHandler.handle_event, ht]

theorem execStart_new (s : EventHandler) (e : portal_data) (q : Query)
    (hg : PMap.get s.query_cache e.portal_key.as_tuple = none)
    (hfrom : Query.from_event e = Except.ok q) :
    s.handle_ExecutorStart e =
      Except.ok { s with query_cache := PMap.set s.query_cache e.portal_key.as_tuple q } := by
  unfold EventHandler.handle_ExecutorStart
  simp only [hg, hfrom]

theorem dpEnter_found (s : EventHandler) (e : portal_data) (q q₁ : Query)
    (hg : PMap.get s.query_cache e.portal_key.as_tuple = some q)
    (hup : q.update e = Except.ok q₁) :
    s.handle_DropPortalEnter e =
      Except.ok
        { s with
          last_portal_key := some e.portal_key.as_tuple,
          query_cache := PMap.set s.query_cache e.portal_key.as_tuple q₁ } := by
  unfold EventHandler.handle_DropPortalEnter
  simp only [hg, hup]

theorem dpReturn_found (s : EventHandler) (e : portal_data) (k : Nat × Nat) (q : Query)
    (hl : s.last_portal_key = some k)
    (hg : PMap.get s.query_cache k = some q) :
    s.handle_DropPortalReturn e =
      { query_cache := PMap.del s.query_cache k,
        query_history := s.query_history ++ [q],
        last_portal_key := none } := by
  unfold EventHandler.handle_DropPortalReturn
  simp only [hl, hg]

/-- **C1**: (i) from a fresh cache, the event sequence `SessionStart(k)`,
`TeardownEnter(k)`, `TeardownReturn()` leaves exactly one Query — the one
built at start and merged at teardown-enter — appended to the history, the
key gone from the open cache and the pending-teardown slot cleared; and
(ii) in general, from any well-formed state holding key `k`, completing
`TeardownEnter(k)`; `TeardownReturn()` appends that (merged) Query to the
end of the history exactly once — in teardown-return arrival order — while
removing `k` from the open cache and clearing the pending slot. -/
theorem claim_C1_teardown_exactly_once :
    (∀ (k : Nat × Nat) (e₀ e₁ e₂ : portal_data) (q q₁ : Query),
        e₀.event_type = 1 → e₁.event_type = 3 → e₂.event_type = 4 →
        e₀.portal_key.as_tuple = k → e₁.portal_key.as_tuple = k →
        Query.from_event e₀ = Except.ok q → q.update e₁ = Except.ok q₁ →
        processEvents EventHandler.init [e₀, e₁, e₂] =
          { query_cache := PMap.empty, query_history := [q₁],
            last_portal_key := none }) ∧
    (∀ (s : EventHandler) (k : Nat × Nat) (e₁ e₂ : portal_data) (q q₁ : Query),
        PMap.WF s.query_cache →
        e₁.event_type = 3 → e₂.event_type = 4 →
        e₁.portal_key.as_tuple = k →
        PMap.get s.query_cache k = some q →
        q.update e₁ = Except.ok q₁ →
        (processEvents s [e₁, e₂]).query_history = s.query_history ++ [q₁] ∧
        PMap.get (processEvents s [e₁, e₂]).query_cache k = none ∧
        (processEvents s [e₁, e₂]).last_portal_key = none) := by
  constructor
  · intro k e₀ e₁ e₂ q q₁ ht0 ht1 ht2 hk0 hk1 hfrom hup
    have h0 : EventHandler.handle_event EventHandler.init e₀ =
        Except.ok
          { query_cache := [(k, q)], query_history := [], last_portal_key := none } := by
      rw [handle_event_start _ _ ht0,
        execStart_new EventHandler.init e₀ q rfl hfrom, hk0]
      rfl
    have h1 : EventHandler.handle_event
        { query_cache := [(k, q)], query_history := [], last_portal_key := none } e₁ =
        Except.ok
          { query_cache := [(k, q₁)], query_history := [],
            last_portal_key := some k } := by
      rw [handle_event_dpe _ _ ht1,
        dpEnter_found _ _ q q₁ (by rw [hk1]; simp [PMap.get]) hup, hk1]
      simp [PMap.set]
    have h2 : EventHandler.handle_event
        { query_cache := [(k, q₁)], query_history := [], last_portal_key := some k }
        e₂ =
        Except.ok
          { query_cache := [], query_history := [q₁], last_portal_key := none } := by
      rw [handle_event_dpr _ _ ht2,
        dpReturn_found _ e₂ k q₁ rfl (by simp [PMap.get])]
      simp [PMap.del]
    simp only [processEvents, h0, h1, h2]
    rfl
  · intro s k e₁ e₂ q q₁ hwf ht1 ht2 hk1 hq hup
    subst hk1
    have h1 : s.handle_event e₁ =
        Except.ok
          { s with
            last_portal_key := some e₁.portal_key.as_tuple,
            query_cache := PMap.set s.query_cache e₁.portal_key.as_tuple q₁ } := by
      rw [handle_event_dpe _ _ ht1]
      exact dpEnter_found s e₁ q q₁ hq hup
    have h2 : EventHandler.handle_event
        { s with
          last_portal_key := some e₁.portal_key.as_tuple,
          query_cache := PMap.set s.query_cache e₁.portal_key.as_tuple q₁ } e₂ =
        Except.ok
          { query_cache :=
              PMap.del (PMap.set s.query_cache e₁.portal_key.as_tuple q₁)
                e₁.portal_key.as_tuple,
            query_history := s.query_history ++ [q₁],
            last_portal_key := none } := by
      rw [handle_event_dpr _ _ ht2,
        dpReturn_found _ e₂ e₁.portal_key.as_tuple q₁ rfl (PMap.get_set_self _ _ _)]
    simp only [processEvents, h1, h2]
    exact ⟨trivial, PMap.get_del_self (PMap.WF_set hwf _ _) _, trivial⟩

/-- Witness for C1: the concrete session `[start, teardown-enter,
teardown-return]` on key `(3, 5)` finalises exactly one query into history
and empties the cache. -/
theorem claim_C1_teardown_exactly_once_witness :
    processEvents EventHandler.init
      [⟨1, ⟨3, 5⟩, [0x41], ⟨false, 0⟩, []⟩,
       ⟨3, ⟨3, 5⟩, [], ⟨true, 9⟩, []⟩,
       ⟨4, ⟨7, 7⟩, [], ⟨false, 0⟩, []⟩] =
      { query_cache := PMap.empty,
        query_history :=
          [{ startts := some 5, text := some [0x41], instrument := some ⟨true, 9⟩,
             search_path := none, nodes := PMap.empty }],
        last_portal_key := none } :=
  claim_C1_teardown_exactly_once.1 (3, 5) _ _ _
    { startts := some 5, text := some [0x41], instrument := some ⟨false, 0⟩,
      search_path := none, nodes := PMap.empty }
    { startts := some 5, text := some [0x41], instrument := some ⟨true, 9⟩,
      search_path := none, nodes := PMap.empty }
    rfl rfl rfl rfl rfl rfl rfl

/-- Witness for C10: reporting node 1 over an `ExecAgg` frame pointing at 2
leaves only node 1 resolved; the freshly created ancestor 2 stays a stub. -/
theorem claim_C10_only_reporter_resolved_witness :
    (∃ n', PMap.get ((Query.mk none none none none PMap.empty).add_node_from_event
        ⟨1, [⟨"reportingFrame", []⟩, ⟨"ExecAgg", [0, 2]⟩], ⟨true, 3⟩⟩).nodes 1 = some n'
        ∧ n'.is_stub = false) ∧
    (∀ a, a ≠ 1 →
      (∀ n, PMap.get (PMap.empty : PMap Nat PlanState) a = some n →
        ∃ n', PMap.get ((Query.mk none none none none PMap.empty).add_node_from_event
          ⟨1, [⟨"reportingFrame", []⟩, ⟨"ExecAgg", [0, 2]⟩], ⟨true, 3⟩⟩).nodes a = some n'
          ∧ n'.is_stub = n.is_stub) ∧
      (PMap.get (PMap.empty : PMap Nat PlanState) a = none →
        ∀ n', PMap.get ((Query.mk none none none none PMap.empty).add_node_from_event
          ⟨1, [⟨"reportingFrame", []⟩, ⟨"ExecAgg", [0, 2]⟩], ⟨true, 3⟩⟩).nodes a = some n' →
          n'.is_stub = true)) :=
  claim_C10_only_reporter_resolved _ _
    (fun a n hget => absurd hget (by simp [PMap.get, PMap.empty]))

end PgTracer
